import Mathlib

/-!
Verification of the LabExT movement-calibration core
(`LabExT/Movement/Calibration.py`, `LabExT/Movement/MoverNew.py`,
`LabExT/Movement/Transformations.py`) against its natural-language
specification.  The Python code is embedded shallowly: enumerations become
inductive types, dictionaries become functions into `Option`, numeric values
become `ℚ`/`ℤ`, and methods that may raise become functions into `Except`.
-/

namespace LabExT

/-- Axis enumeration from `Calibration.py` (`class Axis`): X = 0, Y = 1, Z = 2. -/
inductive Axis
  | X
  | Y
  | Z
deriving DecidableEq, Repr, Fintype

/-- Numeric value of an axis, mirroring the Python enum values. -/
def Axis.val : Axis → ℕ
  | .X => 0
  | .Y => 1
  | .Z => 2

/-- All members of `Axis`, as iterated by Python's `set(Axis)`. -/
def allAxes : List Axis := [Axis.X, Axis.Y, Axis.Z]

/-- Orientation enumeration from `Calibration.py` (`class Orientation`). -/
inductive Orientation
  | LEFT
  | RIGHT
  | TOP
  | BOTTOM
deriving DecidableEq, Repr, Fintype

/-- All members of `Orientation`. -/
def allOrientations : List Orientation :=
  [Orientation.LEFT, Orientation.RIGHT, Orientation.TOP, Orientation.BOTTOM]

/-- DevicePosition enumeration from `Calibration.py` (`class DevicePosition`). -/
inductive DevicePosition
  | INPUT
  | OUTPUT
deriving DecidableEq, Repr, Fintype

/-- State enumeration from `Calibration.py` (`class State`). -/
inductive State
  | UNINITIALIZED
  | CONNECTED
  | COORDINATE_SYSTEM_FIXED
  | SINGLE_POINT_FIXED
  | FULLY_CALIBRATED
deriving DecidableEq, Repr, Fintype

/-- Numeric enum value of a `State`, mirroring `State.value` in Python:
UNINITIALIZED = 0, CONNECTED = 1, COORDINATE_SYSTEM_FIXED = 2,
SINGLE_POINT_FIXED = 3, FULLY_CALIBRATED = 4. -/
def State.val : State → ℕ
  | .UNINITIALIZED => 0
  | .CONNECTED => 1
  | .COORDINATE_SYSTEM_FIXED => 2
  | .SINGLE_POINT_FIXED => 3
  | .FULLY_CALIBRATED => 4

/-- Embeds Python's `State(max(s.value, t.value))`: the state whose numeric
value is the maximum of the two values. -/
def State.maxState (s t : State) : State :=
  if s.val ≤ t.val then t else s

/-- An axis-calibration dictionary, as passed to `fix_coordinate_system`:
a mapping from chip `Axis` keys to `(stage Axis, direction value)` pairs.
Directions are carried by their integer enum value (POSITIVE = 1,
NEGATIVE = -1); an arbitrary integer models an invalid direction entry. -/
def AxesCal : Type := Axis → Option (Axis × ℤ)

/-- Direction-value list of a calibration dictionary, mirroring the
`directions` list built in `is_axis_calibration_valid`. -/
def AxesCal.directions (c : AxesCal) : List ℤ :=
  allAxes.filterMap (fun a => (c a).map Prod.snd)

/-- Stage-axis list of a calibration dictionary, mirroring the `stage_axes`
list built in `is_axis_calibration_valid`. -/
def AxesCal.stageAxes (c : AxesCal) : List Axis :=
  allAxes.filterMap (fun a => (c a).map Prod.fst)

/-- Embeds `is_axis_calibration_valid` from `Calibration.py`: the direction
values must all be members of `Direction` (±1), every chip axis must be a key
(`set(Axis) == set(chip_axes)`), and the stage axes used must cover all of
`Axis` (`set(Axis) == set(stage_axes)`). -/
def is_axis_calibration_valid (c : AxesCal) : Bool :=
  (c.directions.all fun d => d == 1 || d == -1)
    && (allAxes.all fun a => (c a).isSome)
    && (allAxes.all fun a => c.stageAxes.contains a)

/-- Embeds the rotation-matrix derivation loop of
`Calibration.fix_coordinate_system`: starting from a zero matrix, entry
`(stage_axis, chip_axis)` is set to the direction value for every mapping
`chip_axis ↦ (stage_axis, direction)` in the dictionary. -/
def deriveMatrix (c : AxesCal) : Axis → Axis → ℤ :=
  fun s ch =>
    match c ch with
    | some (sa, d) => if sa = s then d else 0
    | none => 0

/-- Embeds the default dictionary of `set_coordinate_system_to_default`:
each chip axis maps to its same-named stage axis with POSITIVE direction. -/
def defaultAxesCalibration : AxesCal :=
  fun a => some (a, 1)

/-- Every axis is in `allAxes`. -/
lemma mem_allAxes (a : Axis) : a ∈ allAxes := by
  cases a <;> simp [allAxes]

/-- Membership in the `directions` list of a calibration dictionary. -/
lemma mem_directions {c : AxesCal} {d : ℤ} :
    d ∈ c.directions ↔ ∃ a s, c a = some (s, d) := by
  constructor
  · intro h
    rcases List.mem_filterMap.mp h with ⟨a, _, ha⟩
    rcases Option.map_eq_some'.mp ha with ⟨p, hp, hsnd⟩
    exact ⟨a, p.1, by rw [hp, ← hsnd]⟩
  · rintro ⟨a, s, ha⟩
    exact List.mem_filterMap.mpr ⟨a, mem_allAxes a, by rw [ha]; rfl⟩

/-- Membership in the `stageAxes` list of a calibration dictionary. -/
lemma mem_stageAxes {c : AxesCal} {s : Axis} :
    s ∈ c.stageAxes ↔ ∃ a d, c a = some (s, d) := by
  constructor
  · intro h
    rcases List.mem_filterMap.mp h with ⟨a, _, ha⟩
    rcases Option.map_eq_some'.mp ha with ⟨p, hp, hfst⟩
    exact ⟨a, p.2, by rw [hp, ← hfst]⟩
  · rintro ⟨a, d, ha⟩
    exact List.mem_filterMap.mpr ⟨a, mem_allAxes a, by rw [ha]; rfl⟩

/-- The three structural conditions of the specification (§3): every chip axis
is mapped, the stage-axis targets are pairwise distinct, and every direction
value is one of {+1, -1}. -/
def axisCalibrationValidSpec (c : AxesCal) : Prop :=
  (∀ a : Axis, (c a).isSome)
    ∧ (∀ a b sa sb da db, c a = some (sa, da) → c b = some (sb, db) → sa = sb → a = b)
    ∧ (∀ a s d, c a = some (s, d) → d = 1 ∨ d = -1)

/-- Stage-axis assignment of a calibration dictionary as a total function
(defaulting to X on unmapped keys); only used in proofs. -/
def stageAxisOf (c : AxesCal) : Axis → Axis :=
  fun a => ((c a).map Prod.fst).getD Axis.X

lemma stageAxisOf_eq {c : AxesCal} {a s : Axis} {d : ℤ} (h : c a = some (s, d)) :
    stageAxisOf c a = s := by
  simp [stageAxisOf, h]

/-- The Boolean validity check of the source coincides with the structural
conditions of the specification. -/
lemma is_axis_calibration_valid_iff (c : AxesCal) :
    is_axis_calibration_valid c = true ↔ axisCalibrationValidSpec c := by
  unfold is_axis_calibration_valid axisCalibrationValidSpec
  rw [Bool.and_eq_true, Bool.and_eq_true, List.all_eq_true, List.all_eq_true,
    List.all_eq_true]
  constructor
  · rintro ⟨⟨hdir, hkeys⟩, hstage⟩
    have hcomp : ∀ a : Axis, (c a).isSome := fun a => hkeys a (mem_allAxes a)
    have hsurj : Function.Surjective (stageAxisOf c) := by
      intro t
      have ht : t ∈ c.stageAxes := by
        have := hstage t (mem_allAxes t)
        simpa using this
      rcases mem_stageAxes.mp ht with ⟨a, d, ha⟩
      exact ⟨a, stageAxisOf_eq ha⟩
    have hinj : Function.Injective (stageAxisOf c) :=
      Finite.injective_iff_surjective.mpr hsurj
    refine ⟨hcomp, ?_, ?_⟩
    · intro a b sa sb da db ha hb hsab
      exact hinj (by rw [stageAxisOf_eq ha, stageAxisOf_eq hb, hsab])
    · intro a s d ha
      have hd := hdir d (mem_directions.mpr ⟨a, s, ha⟩)
      rcases Bool.or_eq_true_iff.mp hd with h | h
      · exact Or.inl (by exact_mod_cast beq_iff_eq.mp h)
      · exact Or.inr (by exact_mod_cast beq_iff_eq.mp h)
  · rintro ⟨hcomp, hpair, hdir⟩
    have hinj : Function.Injective (stageAxisOf c) := by
      intro a b hab
      rcases Option.isSome_iff_exists.mp (hcomp a) with ⟨⟨sa, da⟩, ha⟩
      rcases Option.isSome_iff_exists.mp (hcomp b) with ⟨⟨sb, db⟩, hb⟩
      refine hpair a b sa sb da db ha hb ?_
      rw [← stageAxisOf_eq ha, ← stageAxisOf_eq hb, hab]
    have hsurj : Function.Surjective (stageAxisOf c) :=
      Finite.injective_iff_surjective.mp hinj
    refine ⟨⟨?_, fun a _ => hcomp a⟩, ?_⟩
    · intro d hd
      rcases mem_directions.mp hd with ⟨a, s, ha⟩
      rcases hdir a s d ha with h | h <;> simp [h]
    · intro t _
      rcases hsurj t with ⟨a, ha⟩
      rcases Option.isSome_iff_exists.mp (hcomp a) with ⟨⟨sa, da⟩, hca⟩
      have : sa = t := by rw [← stageAxisOf_eq hca, ha]
      subst this
      simpa using mem_stageAxes.mpr ⟨a, da, hca⟩

/-- A calibration dictionary missing the chip-axis key Z. -/
def missingKeyCal : AxesCal :=
  fun a =>
    match a with
    | .X => some (.X, 1)
    | .Y => some (.Y, 1)
    | .Z => none

/-- A calibration dictionary mapping two chip axes to the same stage axis X. -/
def duplicateTargetCal : AxesCal :=
  fun a =>
    match a with
    | .X => some (.X, 1)
    | .Y => some (.X, 1)
    | .Z => some (.Z, 1)

/-- A calibration dictionary with a direction value 2 outside {+1, -1}. -/
def badDirectionCal : AxesCal :=
  fun a =>
    match a with
    | .X => some (.X, 2)
    | .Y => some (.Y, 1)
    | .Z => some (.Z, -1)

/-- C7: `is_axis_calibration_valid` is a total (never-raising) function that
returns true iff all three chip axes are mapped, the stage-axis targets are
pairwise distinct (hence span all three stage axes), and every direction value
is +1 or -1; in particular it returns false for a mapping missing a chip-axis
key, for one with a duplicate stage-axis target, and for one with a direction
value outside {+1, -1}. -/
theorem is_axis_calibration_valid_spec :
    (∀ c : AxesCal, is_axis_calibration_valid c = true ↔ axisCalibrationValidSpec c)
      ∧ is_axis_calibration_valid missingKeyCal = false
      ∧ is_axis_calibration_valid duplicateTargetCal = false
      ∧ is_axis_calibration_valid badDirectionCal = false :=
  ⟨is_axis_calibration_valid_iff, by decide, by decide, by decide⟩

/-- C2: for a valid axis calibration, the derived rotation matrix has entry
`matrix[s][c] = d` for each chip axis `c` mapped to `(stage axis s, direction
d)` and 0 everywhere else, every entry is 0 or ±1, each column has exactly one
nonzero entry and each row has exactly one nonzero entry (a signed permutation
matrix); the identity mapping yields the identity matrix. -/
theorem deriveMatrix_signed_permutation :
    (∀ c : AxesCal, is_axis_calibration_valid c = true →
      (∀ ch s d, c ch = some (s, d) → deriveMatrix c s ch = d)
        ∧ (∀ s ch, (∀ d, c ch ≠ some (s, d)) → deriveMatrix c s ch = 0)
        ∧ (∀ s ch, deriveMatrix c s ch = 0 ∨ deriveMatrix c s ch = 1 ∨
            deriveMatrix c s ch = -1)
        ∧ (∀ ch, ∃! s, deriveMatrix c s ch ≠ 0)
        ∧ (∀ s, ∃! ch, deriveMatrix c s ch ≠ 0))
      ∧ (∀ s ch, deriveMatrix defaultAxesCalibration s ch = if s = ch then 1 else 0) := by
  constructor
  · intro c hc
    obtain ⟨hcomp, hpair, hdir⟩ := (is_axis_calibration_valid_iff c).mp hc
    have hmap : ∀ ch s d, c ch = some (s, d) → deriveMatrix c s ch = d := by
      intro ch s d h
      simp [deriveMatrix, h]
    refine ⟨hmap, ?_, ?_, ?_, ?_⟩
    · intro s ch h
      unfold deriveMatrix
      cases hc2 : c ch with
      | none => rfl
      | some p =>
        obtain ⟨sa, d⟩ := p
        by_cases hs : sa = s
        · subst hs
          exact absurd hc2 (h d)
        · simp [hs]
    · intro s ch
      unfold deriveMatrix
      cases hc2 : c ch with
      | none => simp
      | some p =>
        obtain ⟨sa, d⟩ := p
        by_cases hs : sa = s
        · subst hs
          rcases hdir ch sa d hc2 with h1 | h1 <;> simp [h1]
        · simp [hs]
    · intro ch
      rcases Option.isSome_iff_exists.mp (hcomp ch) with ⟨⟨s0, d0⟩, h0⟩
      have hd0 : d0 = 1 ∨ d0 = -1 := hdir ch s0 d0 h0
      have hne : deriveMatrix c s0 ch ≠ 0 := by
        rw [hmap ch s0 d0 h0]
        rcases hd0 with h | h <;> simp [h]
      refine ⟨s0, hne, ?_⟩
      intro y hy
      unfold deriveMatrix at hy
      rw [h0] at hy
      by_cases h : s0 = y
      · exact h.symm
      · simp [h] at hy
    · intro s
      have hinj : Function.Injective (stageAxisOf c) := by
        intro a b hab
        rcases Option.isSome_iff_exists.mp (hcomp a) with ⟨⟨sa, da⟩, ha⟩
        rcases Option.isSome_iff_exists.mp (hcomp b) with ⟨⟨sb, db⟩, hb⟩
        refine hpair a b sa sb da db ha hb ?_
        rw [← stageAxisOf_eq ha, ← stageAxisOf_eq hb, hab]
      rcases Finite.injective_iff_surjective.mp hinj s with ⟨ch, hch⟩
      rcases Option.isSome_iff_exists.mp (hcomp ch) with ⟨⟨sa, d⟩, hc2⟩
      have hsa : sa = s := by rw [← stageAxisOf_eq hc2, hch]
      subst hsa
      have hd : d = 1 ∨ d = -1 := hdir ch sa d hc2
      have hne : deriveMatrix c sa ch ≠ 0 := by
        rw [hmap ch sa d hc2]
        rcases hd with h | h <;> simp [h]
      refine ⟨ch, hne, ?_⟩
      intro y hy
      unfold deriveMatrix at hy
      cases hcy : c y with
      | none =>
        rw [hcy] at hy
        simp at hy
      | some p =>
        obtain ⟨sy, dy⟩ := p
        rw [hcy] at hy
        by_cases hss : sy = sa
        · subst hss
          exact hpair y ch sy sy dy d hcy hc2 rfl
        · simp [hss] at hy
  · decide

/-- Witness for C2: the default calibration is valid, and its derived matrix
has exactly one nonzero entry in the Y column. -/
theorem deriveMatrix_signed_permutation_witness :
    is_axis_calibration_valid defaultAxesCalibration = true
      ∧ (∃! s, deriveMatrix defaultAxesCalibration s Axis.Y ≠ 0) :=
  ⟨by decide,
    ((deriveMatrix_signed_permutation.1 defaultAxesCalibration (by decide)).2.2.2.1) Axis.Y⟩

/-- Identity matrix set by `set_coordinate_system_to_default` (`np.identity`). -/
def identityAxesMatrix : Axis → Axis → ℤ :=
  fun s ch => if s = ch then 1 else 0

/-- Embeds `SinglePointFixation` from `Transformations.py`: one chip point and
one stage point of dimension `n`, coordinates as rationals. -/
structure SinglePointFixation (n : ℕ) where
  chipCoordinate : Fin n → ℚ
  stageCoordinate : Fin n → ℚ

/-- Embeds `self.offset = self.stage_coordinate - self.chip_coordinate`. -/
def SinglePointFixation.offset {n : ℕ} (t : SinglePointFixation n) : Fin n → ℚ :=
  fun i => t.stageCoordinate i - t.chipCoordinate i

/-- Embeds `SinglePointFixation.chip_to_stage`: returns the point plus the offset. -/
def SinglePointFixation.chip_to_stage {n : ℕ} (t : SinglePointFixation n)
    (p : Fin n → ℚ) : Fin n → ℚ :=
  fun i => p i + t.offset i

/-- Embeds `SinglePointFixation.stage_to_chip`: the source also ADDS the
offset here (`np.array(stage_coordinate) + self.offset`). -/
def SinglePointFixation.stage_to_chip {n : ℕ} (t : SinglePointFixation n)
    (p : Fin n → ℚ) : Fin n → ℚ :=
  fun i => p i + t.offset i

/-- An external stage handle: an identifier, its connection flag, and whether
its set-speed/set-acceleration calls raise a RuntimeError. -/
structure Stage where
  sid : ℕ
  connected : Bool
  failsOnSet : Bool
deriving DecidableEq, Repr

/-- The `StageError` exception raised by a failing `stage.connect()`. -/
inductive StageError
  | stageError
deriving DecidableEq, Repr

/-- Python exception kinds raised by the embedded methods: `MoverError`
(a RuntimeError subclass) and `ValueError`. -/
inductive PyErr
  | moverError
  | valueError
deriving DecidableEq, Repr

/-- Embeds the `Calibration` object: its stage handle, orientation, device
position, state, stored axis calibration with the derived rotation matrix,
and the optional single-point transformation. -/
structure Calibration where
  stage : Stage
  orientation : Orientation
  devicePosition : DevicePosition
  state : State
  axesCalibration : AxesCal
  axesRotationMatrix : Axis → Axis → ℤ
  singlePointTransformation : Option (SinglePointFixation 3)

/-- Embeds `Calibration.__init__`: state is CONNECTED when the stage is
already connected, else UNINITIALIZED; the axis calibration starts at the
default identity mapping with the identity matrix; no transformation is set. -/
def mkCalibration (stage : Stage) (o : Orientation) (p : DevicePosition) : Calibration :=
  { stage := stage
    orientation := o
    devicePosition := p
    state := if stage.connected then State.CONNECTED else State.UNINITIALIZED
    axesCalibration := defaultAxesCalibration
    axesRotationMatrix := identityAxesMatrix
    singlePointTransformation := none }

/-- Possible outcomes of the external `stage.connect()` call: it returns a
truthy value, returns a falsy value, or raises a `StageError`. -/
inductive ConnectOutcome
  | success
  | failure
  | raiseError
deriving DecidableEq, Repr

/-- Embeds `Calibration.connect_to_stage`: on a successful connect the state
becomes `max(state, CONNECTED)`; on a falsy connect nothing changes and False
is returned; on a raised `StageError` the state is reset to UNINITIALIZED and
the error is re-raised. -/
def Calibration.connect_to_stage (cal : Calibration) (o : ConnectOutcome) :
    Except StageError Bool × Calibration :=
  match o with
  | .success => (.ok true, { cal with state := cal.state.maxState .CONNECTED })
  | .failure => (.ok false, cal)
  | .raiseError => (.error .stageError, { cal with state := .UNINITIALIZED })

/-- Embeds `Calibration.fix_coordinate_system`: an invalid dictionary raises a
ValueError before any field is written; a valid one stores the dictionary and
its derived matrix and sets the state to `max(state, COORDINATE_SYSTEM_FIXED)`. -/
def Calibration.fix_coordinate_system (cal : Calibration) (ac : AxesCal) :
    Except PyErr Calibration :=
  if is_axis_calibration_valid ac then
    .ok { cal with
      axesCalibration := ac
      axesRotationMatrix := deriveMatrix ac
      state := cal.state.maxState .COORDINATE_SYSTEM_FIXED }
  else
    .error .valueError

/-- Embeds `Calibration.fix_single_point`: stores the transformation and sets
the state to `max(state, SINGLE_POINT_FIXED)`. -/
def Calibration.fix_single_point (cal : Calibration) (t : SinglePointFixation 3) :
    Calibration :=
  { cal with
    singlePointTransformation := some t
    state := cal.state.maxState .SINGLE_POINT_FIXED }

/-- One invocation of a mutating `Calibration` method. -/
inductive CalOp
  | connect (outcome : ConnectOutcome)
  | fixCoordinateSystem (ac : AxesCal)
  | fixSinglePoint (t : SinglePointFixation 3)

/-- True exactly for a `connect` call whose underlying stage raises. -/
def CalOp.isConnectFailure : CalOp → Bool
  | .connect .raiseError => true
  | _ => false

/-- The calibration object after one method call; a method that raises leaves
the object exactly as it was (the source raises before mutating). -/
def calStep (cal : Calibration) (op : CalOp) : Calibration :=
  match op with
  | .connect o => (cal.connect_to_stage o).2
  | .fixCoordinateSystem ac =>
    match cal.fix_coordinate_system ac with
    | .ok c => c
    | .error _ => cal
  | .fixSinglePoint t => cal.fix_single_point t

/-- The numeric state value never shrinks under `maxState` with a fixed floor. -/
lemma le_maxState_val : ∀ s t : State, s.val ≤ (s.maxState t).val := by
  decide

/-- C5: whenever `connect_to_stage` fails with the stage's connection error,
the calibration's state is reset to UNINITIALIZED — from any prior state,
including COORDINATE_SYSTEM_FIXED — and the `StageError` is re-raised to the
caller. -/
theorem connect_to_stage_failure_resets (cal : Calibration) :
    (cal.connect_to_stage .raiseError).1 = .error .stageError
      ∧ (cal.connect_to_stage .raiseError).2.state = .UNINITIALIZED :=
  ⟨rfl, rfl⟩

/-- C8: `fix_coordinate_system` with an invalid mapping raises a ValueError
and leaves the whole calibration object (stored mapping, matrix, state)
unchanged; with a valid mapping it stores the mapping and the derived matrix
and moves the state to `max(state, COORDINATE_SYSTEM_FIXED)`, which is at
least COORDINATE_SYSTEM_FIXED. -/
theorem fix_coordinate_system_spec (cal : Calibration) (ac : AxesCal) :
    (is_axis_calibration_valid ac = false →
      cal.fix_coordinate_system ac = .error .valueError
        ∧ calStep cal (.fixCoordinateSystem ac) = cal)
      ∧ (is_axis_calibration_valid ac = true →
        cal.fix_coordinate_system ac =
          .ok { cal with
            axesCalibration := ac
            axesRotationMatrix := deriveMatrix ac
            state := cal.state.maxState .COORDINATE_SYSTEM_FIXED }
          ∧ State.COORDINATE_SYSTEM_FIXED.val
              ≤ (cal.state.maxState .COORDINATE_SYSTEM_FIXED).val) := by
  constructor
  · intro h
    constructor
    · simp [Calibration.fix_coordinate_system, h]
    · simp [calStep, Calibration.fix_coordinate_system, h]
  · intro h
    constructor
    · simp [Calibration.fix_coordinate_system, h]
    · have hval : ∀ s : State,
          State.COORDINATE_SYSTEM_FIXED.val ≤ (s.maxState .COORDINATE_SYSTEM_FIXED).val := by
        decide
      exact hval cal.state

/-- A concrete disconnected calibration in the LEFT/INPUT slot. -/
def cal0 : Calibration := mkCalibration ⟨0, false, false⟩ .LEFT .INPUT

/-- Witness for C8: at `cal0`, the invalid duplicate-target mapping leaves the
object unchanged, and the default mapping is stored together with its derived
matrix. -/
theorem fix_coordinate_system_spec_witness :
    calStep cal0 (.fixCoordinateSystem duplicateTargetCal) = cal0
      ∧ cal0.fix_coordinate_system defaultAxesCalibration =
        .ok { cal0 with
          axesCalibration := defaultAxesCalibration
          axesRotationMatrix := deriveMatrix defaultAxesCalibration
          state := cal0.state.maxState .COORDINATE_SYSTEM_FIXED } :=
  ⟨((fix_coordinate_system_spec cal0 duplicateTargetCal).1 (by decide)).2,
    ((fix_coordinate_system_spec cal0 defaultAxesCalibration).2 (by decide)).1⟩

/-- C9: across `connect_to_stage`, `fix_coordinate_system` and
`fix_single_point`, the numeric state value never decreases, except for the
one explicit failure reset: a `connect` whose stage raises, which sets the
state to UNINITIALIZED. -/
theorem calibration_state_monotone (cal : Calibration) (op : CalOp) :
    (op.isConnectFailure = false → cal.state.val ≤ (calStep cal op).state.val)
      ∧ (op.isConnectFailure = true → (calStep cal op).state = .UNINITIALIZED) := by
  cases op with
  | connect o =>
    cases o with
    | success =>
      refine ⟨fun _ => ?_, fun h => by simp [CalOp.isConnectFailure] at h⟩
      exact le_maxState_val cal.state .CONNECTED
    | failure =>
      exact ⟨fun _ => le_refl _, fun h => by simp [CalOp.isConnectFailure] at h⟩
    | raiseError =>
      exact ⟨fun h => by simp [CalOp.isConnectFailure] at h, fun _ => rfl⟩
  | fixCoordinateSystem ac =>
    refine ⟨fun _ => ?_, fun h => by simp [CalOp.isConnectFailure] at h⟩
    by_cases hv : is_axis_calibration_valid ac
    · simp [calStep, Calibration.fix_coordinate_system, hv]
      exact le_maxState_val cal.state .COORDINATE_SYSTEM_FIXED
    · simp [calStep, Calibration.fix_coordinate_system, hv]
  | fixSinglePoint t =>
    refine ⟨fun _ => ?_, fun h => by simp [CalOp.isConnectFailure] at h⟩
    exact le_maxState_val cal.state .SINGLE_POINT_FIXED

/-- A concrete single-point transformation in three dimensions. -/
def spExample3 : SinglePointFixation 3 := ⟨![0, 0, 0], ![1, 2, 3]⟩

/-- Witness for C9: at `cal0`, fixing a single point does not lower the state,
and a raising connect resets the state to UNINITIALIZED. -/
theorem calibration_state_monotone_witness :
    cal0.state.val ≤ (calStep cal0 (.fixSinglePoint spExample3)).state.val
      ∧ (calStep cal0 (.connect .raiseError)).state = .UNINITIALIZED :=
  ⟨(calibration_state_monotone cal0 (.fixSinglePoint spExample3)).1 rfl,
    (calibration_state_monotone cal0 (.connect .raiseError)).2 rfl⟩

/-- A concrete two-dimensional single-point fixation: chip point (0,0) paired
with stage point (1,0), so the offset is (1,0). -/
def spExample : SinglePointFixation 2 := ⟨![0, 0], ![1, 0]⟩

/-- C3 (failing on the code): for the fixation with offset (1,0), the source's
`stage_to_chip` adds the offset instead of subtracting it, so the round trip
`stage_to_chip(chip_to_stage((0,0)))` returns (2,0) rather than (0,0). -/
theorem singlePointFixation_roundtrip_fails :
    spExample.stage_to_chip (spExample.chip_to_stage ![0, 0]) 0 = 2
      ∧ spExample.stage_to_chip (spExample.chip_to_stage ![0, 0]) ≠ ![0, 0] := by
  have h : spExample.stage_to_chip (spExample.chip_to_stage ![0, 0]) 0 = 2 := by
    simp [spExample, SinglePointFixation.stage_to_chip, SinglePointFixation.chip_to_stage,
      SinglePointFixation.offset]
    norm_num
  refine ⟨h, fun heq => ?_⟩
  have h0 := congrFun heq 0
  rw [h] at h0
  simp at h0

/-- Embeds `rmsd.centroid`: the coordinate-wise mean of a list of points. -/
def centroid {n : ℕ} (pts : List (Fin n → ℚ)) : Fin n → ℚ :=
  fun i => (pts.map (fun p => p i)).sum / pts.length

/-- Embeds the `KabschRotation` object after construction: the fitted rotation
matrix, its stored inverse, and the centroids of the two point sets. -/
structure KabschRotation (n : ℕ) where
  matrix : Matrix (Fin n) (Fin n) ℚ
  matrixInverse : Matrix (Fin n) (Fin n) ℚ
  chipOffset : Fin n → ℚ
  stageOffset : Fin n → ℚ

/-- Modelled from the spec: `rmsd.kabsch` (vendored `LabExT/rmsd.py`, not under
`src/`) fits via SVD a proper rotation matrix aligning the centered point
sets, and `np.linalg.inv` computes its inverse; both are outside the embedded
sources, so the fitted matrix and its inverse enter as parameters and the
inverse property `matrix * matrixInverse = 1` is a hypothesis of the
round-trip theorem.  The centroid translation follows the constructor. -/
def mkKabschRotation {n : ℕ} (chipCoordinates stageCoordinates : List (Fin n → ℚ))
    (m mInv : Matrix (Fin n) (Fin n) ℚ) : KabschRotation n :=
  { matrix := m
    matrixInverse := mInv
    chipOffset := centroid chipCoordinates
    stageOffset := centroid stageCoordinates }

/-- Embeds `KabschRotation.chip_to_stage`:
`np.dot(p - chip_offset, matrix) + stage_offset` (row-vector convention). -/
def KabschRotation.chip_to_stage {n : ℕ} (k : KabschRotation n) (p : Fin n → ℚ) :
    Fin n → ℚ :=
  Matrix.vecMul (p - k.chipOffset) k.matrix + k.stageOffset

/-- Embeds `KabschRotation.stage_to_chip`:
`np.dot(p - stage_offset, matrix_inverse) + chip_offset`. -/
def KabschRotation.stage_to_chip {n : ℕ} (k : KabschRotation n) (p : Fin n → ℚ) :
    Fin n → ℚ :=
  Matrix.vecMul (p - k.stageOffset) k.matrixInverse + k.chipOffset

/-- C4: for a `KabschRotation` built from equal-length chip and stage point
lists whose fitted matrix composes with the stored inverse to the identity,
`stage_to_chip` undoes `chip_to_stage` exactly, for every point. -/
theorem kabschRotation_roundtrip (n : ℕ)
    (chipPts stagePts : List (Fin n → ℚ)) (m mInv : Matrix (Fin n) (Fin n) ℚ)
    (hlen : chipPts.length = stagePts.length) (hinv : m * mInv = 1) :
    ∀ p : Fin n → ℚ,
      (mkKabschRotation chipPts stagePts m mInv).stage_to_chip
        ((mkKabschRotation chipPts stagePts m mInv).chip_to_stage p) = p := by
  intro p
  unfold KabschRotation.stage_to_chip KabschRotation.chip_to_stage mkKabschRotation
  simp only [add_sub_cancel_right, Matrix.vecMul_vecMul, hinv, Matrix.vecMul_one,
    sub_add_cancel]

/-- Witness for C4: a two-point planar correspondence with the identity as
fitted matrix round-trips the point (5, 7). -/
theorem kabschRotation_roundtrip_witness :
    ([![(0 : ℚ), 0], ![2, 0]] : List (Fin 2 → ℚ)).length
        = ([![(1 : ℚ), 1], ![3, 1]] : List (Fin 2 → ℚ)).length
      ∧ (1 : Matrix (Fin 2) (Fin 2) ℚ) * 1 = 1
      ∧ (mkKabschRotation [![(0 : ℚ), 0], ![2, 0]] [![(1 : ℚ), 1], ![3, 1]] 1 1).stage_to_chip
          ((mkKabschRotation [![(0 : ℚ), 0], ![2, 0]] [![(1 : ℚ), 1], ![3, 1]] 1
            1).chip_to_stage ![5, 7]) = ![5, 7] :=
  ⟨rfl, mul_one 1,
    kabschRotation_roundtrip 2 [![(0 : ℚ), 0], ![2, 0]] [![(1 : ℚ), 1], ![3, 1]] 1 1 rfl
      (mul_one 1) ![5, 7]⟩

/-- Speed lower bound from `MoverNew` (`SPEED_LOWER_BOUND = 0`). -/
def SPEED_LOWER_BOUND : ℚ := 0

/-- Speed upper bound from `MoverNew` (`SPEED_UPPER_BOUND = 1e5`). -/
def SPEED_UPPER_BOUND : ℚ := 100000

/-- Acceleration lower bound from `MoverNew` (`ACCELERATION_LOWER_BOUND = 0`). -/
def ACCELERATION_LOWER_BOUND : ℚ := 0

/-- Acceleration upper bound from `MoverNew` (`ACCELERATION_UPPER_BOUND = 1e7`). -/
def ACCELERATION_UPPER_BOUND : ℚ := 10000000

/-- Embeds `MoverNew`: the calibration dictionary keyed by orientation and the
three stored shared settings. -/
structure Mover where
  calibrations : Orientation → Option Calibration
  speedXY : ℚ
  speedZ : ℚ
  accelerationXY : ℚ

/-- A freshly constructed mover: no calibrations, default speeds 200 / 20 and
default acceleration 0. -/
def emptyMover : Mover :=
  { calibrations := fun _ => none
    speedXY := 200
    speedZ := 20
    accelerationXY := 0 }

/-- The values of the calibration dictionary
(`self._calibrations.values()`). -/
def Mover.calibrationList (m : Mover) : List Calibration :=
  allOrientations.filterMap m.calibrations

/-- Embeds `MoverNew.stages`: the stage of every registered calibration. -/
def Mover.stages (m : Mover) : List Stage :=
  m.calibrationList.map (·.stage)

/-- Embeds `MoverNew.connected_stages`: the registered stages that are
connected. -/
def Mover.connected_stages (m : Mover) : List Stage :=
  m.stages.filter (·.connected)

/-- Embeds `MoverNew.has_connected_stages`: `len(connected_stages) != 0`. -/
def Mover.has_connected_stages (m : Mover) : Bool :=
  !m.connected_stages.isEmpty

/-- Embeds `MoverNew.add_stage_calibration`: the orientation and position
checks always pass for well-typed enum members; the call raises `MoverError`
exactly when the stage already appears among the registered stages, and
otherwise constructs a calibration and stores it under the orientation key
(overwriting any entry already there). -/
def Mover.add_stage_calibration (m : Mover) (stage : Stage) (o : Orientation)
    (p : DevicePosition) : Except PyErr (Mover × Calibration) :=
  if stage ∈ m.stages then
    .error .moverError
  else
    let cal := mkCalibration stage o p
    .ok ({ m with calibrations := fun o2 => if o2 = o then some cal else m.calibrations o2 },
      cal)

/-- Embeds the `speed_xy` setter: the `assert_connected_stages` decorator
raises `MoverError` when no stage is connected; an out-of-range value raises
`ValueError`; a stage whose set call raises RuntimeError makes the whole call
raise `MoverError`; otherwise the value is stored. -/
def Mover.set_speed_xy (m : Mover) (umps : ℚ) : Except PyErr Mover :=
  if !m.has_connected_stages then .error .moverError
  else if umps < SPEED_LOWER_BOUND ∨ umps > SPEED_UPPER_BOUND then .error .valueError
  else if m.connected_stages.any (·.failsOnSet) then .error .moverError
  else .ok { m with speedXY := umps }

/-- Embeds the `speed_z` setter, with the same structure as `speed_xy`. -/
def Mover.set_speed_z (m : Mover) (umps : ℚ) : Except PyErr Mover :=
  if !m.has_connected_stages then .error .moverError
  else if umps < SPEED_LOWER_BOUND ∨ umps > SPEED_UPPER_BOUND then .error .valueError
  else if m.connected_stages.any (·.failsOnSet) then .error .moverError
  else .ok { m with speedZ := umps }

/-- Embeds the `acceleration_xy` setter; the source's range test is
`umps2 < self.ACCELERATION_LOWER_BOUND or umps2 > self.ACCELERATION_LOWER_BOUND`,
with the LOWER bound on both sides, and this embedding keeps that line as
written. -/
def Mover.set_acceleration_xy (m : Mover) (umps2 : ℚ) : Except PyErr Mover :=
  if !m.has_connected_stages then .error .moverError
  else if umps2 < ACCELERATION_LOWER_BOUND ∨ umps2 > ACCELERATION_LOWER_BOUND then
    .error .valueError
  else if m.connected_stages.any (·.failsOnSet) then .error .moverError
  else .ok { m with accelerationXY := umps2 }

/-- The state values of the registered calibrations. -/
def Mover.stateList (m : Mover) : List State :=
  m.calibrationList.map (·.state)

/-- Embeds `MoverNew.state`: UNINITIALIZED when no calibrations are
registered, else the state with the minimum numeric value among them. -/
def Mover.state (m : Mover) : State :=
  match m.stateList with
  | [] => State.UNINITIALIZED
  | s :: rest => rest.foldl (fun a b => if b.val < a.val then b else a) s

/-- A disconnected stage used in the registration scenarios. -/
def stageA : Stage := ⟨0, false, false⟩

/-- A second, distinct disconnected stage. -/
def stageB : Stage := ⟨1, false, false⟩

/-- The mover after registering `stageA` in the LEFT/INPUT slot. -/
def moverWithLeft : Mover :=
  match emptyMover.add_stage_calibration stageA .LEFT .INPUT with
  | .ok (m, _) => m
  | .error _ => emptyMover

/-- The mover after then registering `stageB` at LEFT/OUTPUT — a call the
claim says must fail. -/
def moverAfterSecondLeft : Mover :=
  match moverWithLeft.add_stage_calibration stageB .LEFT .OUTPUT with
  | .ok (m, _) => m
  | .error _ => moverWithLeft

/-- Counterexample to C1: with the LEFT orientation already assigned to
`stageA`, registering the distinct `stageB` at LEFT/OUTPUT does not raise a
role-conflict error — it succeeds and silently overwrites the LEFT slot with
the new calibration. -/
theorem add_stage_calibration_orientation_conflict_accepted :
    (moverWithLeft.calibrations .LEFT).isSome = true
      ∧ (moverWithLeft.add_stage_calibration stageB .LEFT .OUTPUT).isOk = true
      ∧ (moverAfterSecondLeft.calibrations .LEFT).map (·.stage) = some stageB := by
  refine ⟨rfl, ?_, ?_⟩ <;> decide

/-- C1 (amended): `add_stage_calibration` raises `MoverError` exactly when the
stage already appears in an existing calibration (in which case it raises
before any mutation, so the calibration map is unchanged); it performs no
orientation- or position-conflict check, and on success it registers the new
calibration under the orientation key — overwriting any calibration already
there — and returns it. -/
theorem add_stage_calibration_spec (m : Mover) (stage : Stage) (o : Orientation)
    (p : DevicePosition) :
    (stage ∈ m.stages → m.add_stage_calibration stage o p = .error .moverError)
      ∧ (stage ∉ m.stages →
        m.add_stage_calibration stage o p =
          .ok ({ m with
            calibrations := fun o2 =>
              if o2 = o then some (mkCalibration stage o p) else m.calibrations o2 },
            mkCalibration stage o p)) := by
  constructor <;> intro h <;> simp [Mover.add_stage_calibration, h]

/-- Witness for C1: registering `stageA` into the empty mover succeeds and
stores the calibration under LEFT; re-registering the same `stageA` at a
different orientation fails with `MoverError`. -/
theorem add_stage_calibration_spec_witness :
    emptyMover.add_stage_calibration stageA .LEFT .INPUT =
        .ok ({ emptyMover with
          calibrations := fun o2 =>
            if o2 = .LEFT then some (mkCalibration stageA .LEFT .INPUT)
            else emptyMover.calibrations o2 },
          mkCalibration stageA .LEFT .INPUT)
      ∧ moverWithLeft.add_stage_calibration stageA .RIGHT .OUTPUT = .error .moverError :=
  ⟨(add_stage_calibration_spec emptyMover stageA .LEFT .INPUT).2 (by decide),
    (add_stage_calibration_spec moverWithLeft stageA .RIGHT .OUTPUT).1 (by decide)⟩

/-- A mover with one connected stage registered at LEFT/INPUT. -/
def moverConnected : Mover :=
  { emptyMover with
    calibrations := fun o =>
      if o = .LEFT then some (mkCalibration ⟨3, true, false⟩ .LEFT .INPUT) else none }

/-- C6 (failing on the code): with one connected stage, setting the
acceleration to 100 — squarely inside the documented closed bound
[0, 1e7] — raises the range `ValueError`, because the source compares the
value against `ACCELERATION_LOWER_BOUND` on both sides; the analogous
`speed_xy` call with 100 succeeds, and with no connected stage the setter
raises the precondition `MoverError` instead. -/
theorem acceleration_xy_range_bug :
    ACCELERATION_LOWER_BOUND ≤ (100 : ℚ)
      ∧ (100 : ℚ) ≤ ACCELERATION_UPPER_BOUND
      ∧ moverConnected.has_connected_stages = true
      ∧ moverConnected.set_acceleration_xy 100 = .error .valueError
      ∧ moverConnected.set_speed_xy 100 = .ok { moverConnected with speedXY := 100 }
      ∧ emptyMover.set_acceleration_xy 100 = .error .moverError := by
  refine ⟨by norm_num [ACCELERATION_LOWER_BOUND], by norm_num [ACCELERATION_UPPER_BOUND],
    rfl, ?_, ?_, rfl⟩
  · have hconn : moverConnected.has_connected_stages = true := rfl
    simp [Mover.set_acceleration_xy, hconn]
    norm_num [ACCELERATION_LOWER_BOUND]
  · have hconn : moverConnected.has_connected_stages = true := rfl
    have hfail : moverConnected.connected_stages.any (·.failsOnSet) = false := rfl
    simp [Mover.set_speed_xy, hconn, hfail]
    norm_num [SPEED_LOWER_BOUND, SPEED_UPPER_BOUND]

/-- Minimum-selection fold used by `Mover.state`: the result is the seed or a
list element, and its value is a lower bound for the seed and every element. -/
lemma foldl_minState_spec (l : List State) (a : State) :
    (l.foldl (fun x y => if y.val < x.val then y else x) a = a
        ∨ l.foldl (fun x y => if y.val < x.val then y else x) a ∈ l)
      ∧ (l.foldl (fun x y => if y.val < x.val then y else x) a).val ≤ a.val
      ∧ ∀ s ∈ l, (l.foldl (fun x y => if y.val < x.val then y else x) a).val ≤ s.val := by
  induction l generalizing a with
  | nil => simp
  | cons b t ih =>
    rw [List.foldl_cons]
    by_cases h : b.val < a.val
    · simp only [if_pos h]
      obtain ⟨hmem, hle, hall⟩ := ih b
      refine ⟨?_, ?_, ?_⟩
      · rcases hmem with h1 | h1
        · exact Or.inr (by rw [h1]; exact List.mem_cons_self b t)
        · exact Or.inr (List.mem_cons_of_mem b h1)
      · exact le_trans hle (le_of_lt h)
      · intro s hs
        rcases List.mem_cons.mp hs with rfl | hs'
        · exact hle
        · exact hall s hs'
    · simp only [if_neg h]
      obtain ⟨hmem, hle, hall⟩ := ih a
      refine ⟨?_, hle, ?_⟩
      · rcases hmem with h1 | h1
        · exact Or.inl h1
        · exact Or.inr (List.mem_cons_of_mem b h1)
      · intro s hs
        rcases List.mem_cons.mp hs with rfl | hs'
        · exact le_trans hle (le_of_not_lt h)
        · exact hall s hs'

/-- C10: the mover's aggregate state is UNINITIALIZED when no calibrations are
registered, and otherwise is a registered calibration state whose numeric
value is minimal — so it never exceeds the least-progressed calibration. -/
theorem mover_state_aggregate (m : Mover) :
    (m.stateList = [] → m.state = .UNINITIALIZED)
      ∧ (m.stateList ≠ [] →
        m.state ∈ m.stateList ∧ ∀ s ∈ m.stateList, m.state.val ≤ s.val) := by
  constructor
  · intro h
    unfold Mover.state
    rw [h]
  · intro h
    cases hl : m.stateList with
    | nil => exact absurd hl h
    | cons s rest =>
      have hstate : m.state = rest.foldl (fun a b => if b.val < a.val then b else a) s := by
        unfold Mover.state
        rw [hl]
      obtain ⟨hmem, hle, hall⟩ := foldl_minState_spec rest s
      rw [hstate]
      constructor
      · rcases hmem with h1 | h1
        · rw [h1]
          exact List.mem_cons_self s rest
        · exact List.mem_cons_of_mem s h1
      · intro t ht
        rcases List.mem_cons.mp ht with rfl | ht'
        · exact hle
        · exact hall t ht'

/-- A connected calibration at LEFT and a fully calibrated one at RIGHT. -/
def moverTwo : Mover :=
  { emptyMover with
    calibrations := fun o =>
      if o = .LEFT then some (mkCalibration ⟨1, true, false⟩ .LEFT .INPUT)
      else if o = .RIGHT then
        some { mkCalibration ⟨2, true, false⟩ .RIGHT .OUTPUT with state := .FULLY_CALIBRATED }
      else none }

/-- Witness for C10: with a CONNECTED and a FULLY_CALIBRATED calibration
registered, the aggregate state is a registered state and its value does not
exceed the FULLY_CALIBRATED entry. -/
theorem mover_state_aggregate_witness :
    moverTwo.state ∈ moverTwo.stateList
      ∧ moverTwo.state.val ≤ State.FULLY_CALIBRATED.val :=
  ⟨((mover_state_aggregate moverTwo).2 (by decide)).1,
    ((mover_state_aggregate moverTwo).2 (by decide)).2 .FULLY_CALIBRATED (by decide)⟩

end LabExT
